import Mathlib

/-!
Verification development for the ComfyQ server core: a shallow embedding of
`src/server/scheduler.js` (job queue, collision detection, serialized dispatch)
and `src/server/bootManager.js` (engine boot, status, calibration), together
with theorems settling the specification claims about them.

Modelling conventions:
* JS numbers that hold epoch milliseconds and durations are modelled as `Nat`.
* `uuidv4()` is modelled by a fresh-counter field `nextId`; ids of live jobs
  are provably distinct, mirroring uuid uniqueness.
* A method that `throw`s is modelled as returning the post-call state paired
  with an `Except`; the state component is the object state after the call
  (unchanged when the method threw before mutating, exactly as in the source).
* The `async` body of `checkAndExecute`/`executeJob` is split at its `await`
  points into a dispatch step (everything up to the first `await`, which runs
  synchronously in the tick) and a finish step (status finalization plus the
  `finally` cleanup); the poll loop is a pure function of the sequence of
  `/history` responses the engine returns.
-/

namespace ComfyQ

/-- Job lifecycle states of scheduler.js ('scheduled', 'processing', 'completed', 'failed'). -/
inductive JobStatus
  | scheduled
  | processing
  | completed
  | failed
deriving DecidableEq, Repr

/-- Booking-time errors from the spec's taxonomy. The source throws plain
`Error` objects; the message 'Time slot collision detected' / 'Time slot
collision' corresponds to `collisionError`. -/
inductive SchedError
  | collisionError
  | invalidStateError
deriving DecidableEq, Repr

/-- Job record exactly as built by `Scheduler.addJob` (scheduler.js:149-159).
`params` models the params object; the executed code reads only numeric
entries (`job.params.steps`), so entries are keyed numbers. -/
structure Job where
  id : Nat
  user_id : String
  status : JobStatus
  time_slot : Nat
  prompt : String
  params : List (String × Nat)
  result_filename : Option String
  progress : Option (Nat × Nat)
  s_it : Option Nat
deriving DecidableEq, Repr

/-- Mutable state of the Scheduler object (scheduler.js:36-64):
`jobs`, `isWorkerIdle` and `currentExecutingJob` (as the id of the referenced
job object). `nextId` models uuid freshness. -/
structure SchedulerState where
  jobs : List Job
  isWorkerIdle : Bool
  currentExecutingJob : Option Nat
  nextId : Nat
deriving DecidableEq, Repr

/-- Scheduler state right after the constructor runs. -/
def initialScheduler : SchedulerState :=
  { jobs := [], isWorkerIdle := true, currentExecutingJob := none, nextId := 0 }

/-- Collision test of `addJob` (scheduler.js:137-142): the candidate slot
overlaps some job's `[time_slot, time_slot + duration)`; the job's status is
not consulted. -/
def hasCollision (jobs : List Job) (duration scheduledTime : Nat) : Bool :=
  jobs.any fun job =>
    decide (scheduledTime < job.time_slot + duration) &&
    decide (scheduledTime + duration > job.time_slot)

/-- `Scheduler.addJob` (scheduler.js:132-163): collision check against every
job in the list, then append a fresh `scheduled` job. -/
def addJob (s : SchedulerState) (duration : Nat) (userId : String)
    (scheduledTime : Nat) (prompt : String) (params : List (String × Nat)) :
    SchedulerState × Except SchedError Job :=
  if hasCollision s.jobs duration scheduledTime then
    (s, Except.error SchedError.collisionError)
  else
    let newJob : Job :=
      { id := s.nextId, user_id := userId, status := JobStatus.scheduled,
        time_slot := scheduledTime, prompt := prompt, params := params,
        result_filename := none, progress := none, s_it := none }
    ({ s with jobs := s.jobs ++ [newJob], nextId := s.nextId + 1 },
      Except.ok newJob)

/-- In-place mutation of the first list element satisfying `p` (JS pattern
`const x = list.find(p); ...mutate x...`). -/
def updateFirst (p : Job → Bool) (f : Job → Job) : List Job → List Job
  | [] => []
  | j :: rest => if p j then f j :: rest else j :: updateFirst p f rest

/-- Collision test of `reorderJob` (scheduler.js:376-379): every job except
the moved one, status again not consulted. -/
def reorderCollision (s : SchedulerState) (duration jobId t : Nat) : Bool :=
  s.jobs.any fun j =>
    !(j.id == jobId) &&
    decide (t < j.time_slot + duration) &&
    decide (t + duration > j.time_slot)

/-- `Scheduler.reorderJob` (scheduler.js:369-385): silently returns when the
id is unknown, throws on collision, otherwise sets `time_slot` on the found
job object. No status check occurs anywhere in the method. -/
def reorderJob (s : SchedulerState) (duration jobId newTimeSlot : Nat) :
    SchedulerState × Except SchedError Unit :=
  match s.jobs.find? (fun j => j.id == jobId) with
  | none => (s, Except.ok ())
  | some _ =>
    if reorderCollision s duration jobId newTimeSlot then
      (s, Except.error SchedError.collisionError)
    else
      let jobs' := updateFirst (fun j => j.id == jobId)
        (fun j => { j with time_slot := newTimeSlot }) s.jobs
      ({ s with jobs := jobs' }, Except.ok ())

/-- `Scheduler.deleteJob` (scheduler.js:358-364): `findIndex` + `splice(i,1)`,
i.e. removal of the first job with the given id, unconditionally. -/
def deleteJob (s : SchedulerState) (jobId : Nat) : SchedulerState :=
  { s with jobs := s.jobs.eraseP (fun j => j.id == jobId) }

/-- Eligibility test of the dispatch loop (scheduler.js:193):
`job.status === 'scheduled' && now >= job.time_slot`. -/
def isEligible (now : Nat) (job : Job) : Bool :=
  job.status == JobStatus.scheduled && decide (job.time_slot ≤ now)

/-- Key under which `executeJob` reads the step count from `job.params`. -/
def stepsKey : String := "steps"

/-- `job.params.steps || 20` (scheduler.js:242); `0` is falsy in JS. -/
def jobSteps (job : Job) : Nat :=
  match job.params.lookup stepsKey with
  | some n => if n == 0 then 20 else n
  | none => 20

/-- Synchronous opening of `executeJob` (scheduler.js:241-242): mark the job
`processing` and initialize its progress. -/
def markProcessing (job : Job) : Job :=
  { job with status := JobStatus.processing,
             progress := some (0, jobSteps job) }

/-- `this.jobs.find(eligible)` followed by the in-place status mutation:
returns the marked job and the updated list, or `none` when no job is
eligible. -/
def findAndMark (now : Nat) : List Job → Option (Job × List Job)
  | [] => none
  | j :: rest =>
    if isEligible now j then
      some (markProcessing j, markProcessing j :: rest)
    else
      match findAndMark now rest with
      | none => none
      | some (m, rest') => some (m, j :: rest')

/-- Dispatch half of `Scheduler.checkAndExecute` (scheduler.js:188-199): a
busy worker makes the tick a no-op; otherwise the first eligible job in array
order is marked busy/processing. The BootManager is not consulted. -/
def checkAndExecute (s : SchedulerState) (now : Nat) : SchedulerState :=
  if s.isWorkerIdle then
    match findAndMark now s.jobs with
    | none => s
    | some (j, jobs') =>
      { s with jobs := jobs', isWorkerIdle := false,
               currentExecutingJob := some j.id }
  else s

/-- Execution-time errors from the spec's taxonomy; `executionTimeout`
corresponds to the thrown 'Job timed out in ComfyUI history'. -/
inductive ExecError
  | submitFailed
  | executionTimeout
deriving DecidableEq, Repr

/-- One `/history/promptId` poll outcome: request error, id not yet in
history, or history entry present with the extracted result filename. -/
inductive PollResponse
  | httpError
  | pending
  | done (result_filename : Option String)
deriving DecidableEq, Repr

/-- Whether a poll response carries the completed history entry. -/
def isDone : PollResponse → Bool
  | PollResponse.done _ => true
  | _ => false

/-- Poll bound of `executeJob` (scheduler.js:317). -/
def maxAttempts : Nat := 600

/-- Poll loop of `executeJob` (scheduler.js:315-341): up to `fuel` attempts,
each consuming one engine response; request errors and missing entries retry,
a present entry completes with its filename. -/
def pollHistory : Nat → List PollResponse → Option (Option String)
  | 0, _ => none
  | Nat.succ _, [] => none
  | Nat.succ n, r :: rest =>
    match r with
    | PollResponse.done file => some file
    | _ => pollHistory n rest

/-- Post-submit body of `executeJob`: a failed submit throws; otherwise the
poll loop either yields a result or throws the timeout error
(scheduler.js:343). -/
def executeJobBody (submitOk : Bool) (responses : List PollResponse) :
    Except ExecError (Option String) :=
  if submitOk then
    match pollHistory maxAttempts responses with
    | some file => Except.ok file
    | none => Except.error ExecError.executionTimeout
  else Except.error ExecError.submitFailed

/-- Observable outcome of an execution: the `try` succeeded or the `catch`
ran. -/
inductive ExecOutcome
  | success (result_filename : Option String)
  | failure
deriving DecidableEq, Repr

/-- Collapse of the execution body's result into the branch taken by
`executeJob`'s try/catch. -/
def outcomeOf : Except ExecError (Option String) → ExecOutcome
  | Except.ok file => ExecOutcome.success file
  | Except.error _ => ExecOutcome.failure

/-- Final mutation of the executed job (scheduler.js:329-351): success sets
`completed` with full progress and the result filename; the catch sets
`failed`. -/
def applyOutcome (o : ExecOutcome) (j : Job) : Job :=
  match o with
  | ExecOutcome.success file =>
      { j with status := JobStatus.completed, progress := some (100, 100),
               result_filename := file }
  | ExecOutcome.failure => { j with status := JobStatus.failed }

/-- Finish step: `executeJob`'s final job mutation (applied through the held
object reference, i.e. to the job with the remembered id if still present)
plus the `finally` block of `checkAndExecute` (scheduler.js:205-210) freeing
the worker. -/
def finishCurrent (s : SchedulerState) (o : ExecOutcome) : SchedulerState :=
  match s.currentExecutingJob with
  | none => s
  | some cid =>
    { s with jobs := updateFirst (fun j => j.id == cid) (applyOutcome o) s.jobs,
             isWorkerIdle := true, currentExecutingJob := none }

/-- External events driving the scheduler: bookings, timer ticks, execution
completions, deletions and reorders. -/
inductive Event
  | book (userId : String) (t : Nat) (prompt : String) (params : List (String × Nat))
  | tick (now : Nat)
  | finish (o : ExecOutcome)
  | del (jobId : Nat)
  | reorder (jobId : Nat) (t : Nat)

/-- One event applied to the scheduler state; `d` is the BootManager's
`globalJobDuration` read by the booking methods. -/
def step (d : Nat) (s : SchedulerState) : Event → SchedulerState
  | Event.book u t p ps => (addJob s d u t p ps).1
  | Event.tick now => checkAndExecute s now
  | Event.finish o => finishCurrent s o
  | Event.del jobId => deleteJob s jobId
  | Event.reorder jobId t => (reorderJob s d jobId t).1

/-- Scheduler state reached from the constructor state by a sequence of
events. -/
def run (d : Nat) (events : List Event) : SchedulerState :=
  events.foldl (step d) initialScheduler

/-- Number of jobs currently marked `processing`. -/
def processingCount (jobs : List Job) : Nat :=
  (jobs.filter (fun j => j.status == JobStatus.processing)).length

/-- Boolean error test for `Except` results. -/
def isErr {ε α : Type} : Except ε α → Bool
  | Except.error _ => true
  | Except.ok _ => false

/-- BootManager status values (bootManager.js: 'booting', 'ready', 'error'). -/
inductive BootStatus
  | booting
  | ready
  | error
deriving DecidableEq, Repr

/-- Boot-time errors from the spec's taxonomy; the source throws plain
`Error` objects with messages 'Python executable not found' / 'ComfyUI root
path not found' (`configurationError`) and 'Timeout waiting for ComfyUI to
start' or a WebSocket failure (`connectivityError`). -/
inductive BootError
  | configurationError
  | connectivityError
deriving DecidableEq, Repr

/-- Filesystem facts consulted by `validateConfig` (bootManager.js:47-56). -/
structure BootConfig where
  python_executable_exists : Bool
  root_path_exists : Bool
deriving DecidableEq, Repr

/-- Environment behavior during one boot attempt: whether the API health
poll succeeds within its timeout, whether the WebSocket connects, whether
the `/system_stats` ping succeeds, and how long that ping took (the only
duration the code ever measures). -/
structure BootEnv where
  apiReachable : Bool
  wsConnects : Bool
  pingSucceeds : Bool
  pingDurationMs : Nat
deriving DecidableEq, Repr

/-- Mutable state of the BootManager (bootManager.js:8-14). -/
structure BootManagerState where
  globalJobDuration : Nat
  status : BootStatus
deriving DecidableEq, Repr

/-- BootManager state right after the constructor:
`globalJobDuration = 0`, `status = 'booting'`. -/
def initialBootManager : BootManagerState :=
  { globalJobDuration := 0, status := BootStatus.booting }

/-- `BootManager.validateConfig` (bootManager.js:47-56): throws when the
python executable or the root path is missing; touches no state. -/
def validateConfig (cfg : BootConfig) : Except BootError Unit :=
  if !cfg.python_executable_exists then
    Except.error BootError.configurationError
  else if !cfg.root_path_exists then
    Except.error BootError.configurationError
  else Except.ok ()

/-- `BootManager.runBenchmark` (bootManager.js:129-158): pings
`/system_stats`; on success assigns the constant 14500 to
`globalJobDuration`; the measured ping duration is only logged, and a failed
ping is caught so the boot sequence proceeds unchanged. -/
def runBenchmark (m : BootManagerState) (env : BootEnv) : BootManagerState :=
  if env.pingSucceeds then { m with globalJobDuration := 14500 } else m

/-- Return value of `boot` (bootManager.js:41-44). -/
structure BootResult where
  status : BootStatus
  benchmark_ms : Nat
deriving DecidableEq, Repr

/-- `BootManager.boot` (bootManager.js:16-45): validate, spawn, wait for the
API, connect the WebSocket, run the benchmark, then overwrite
`globalJobDuration` with the constant 60000 and set status 'ready'. A stage
failure propagates the thrown error; no failure path assigns `status`. -/
def boot (m : BootManagerState) (cfg : BootConfig) (env : BootEnv) :
    BootManagerState × Except BootError BootResult :=
  match validateConfig cfg with
  | Except.error e => (m, Except.error e)
  | Except.ok _ =>
    if !env.apiReachable then (m, Except.error BootError.connectivityError)
    else if !env.wsConnects then (m, Except.error BootError.connectivityError)
    else
      let m1 := runBenchmark m env
      let m2 := { m1 with globalJobDuration := 60000, status := BootStatus.ready }
      (m2, Except.ok { status := m2.status, benchmark_ms := m2.globalJobDuration })

/-- The `close` handler installed by `launchComfyUI` (bootManager.js:76-79):
an engine process exit is the only place outside `boot`'s success path that
assigns `status`, setting it to 'error'. -/
def onProcessExit (m : BootManagerState) : BootManagerState :=
  { m with status := BootStatus.error }

/-- Combined server state as wired in index.js: one BootManager and one
Scheduler sharing it. -/
structure SystemState where
  bootManager : BootManagerState
  scheduler : SchedulerState
deriving DecidableEq, Repr

/-- One timer tick of the whole system: `checkAndExecute` reads only the
scheduler state and the clock; the BootManager is untouched and unread
(scheduler.js:188-212 never references `bootManager.status`). -/
def systemTick (st : SystemState) (now : Nat) : SystemState :=
  { st with scheduler := checkAndExecute st.scheduler now }

/-- Modelled from the spec: the collision predicate claim C1 states, which
restricts the scan to jobs whose status is `scheduled` or `processing`.
Written from the spec's words for comparison with `hasCollision`. -/
def specCollision (jobs : List Job) (duration t : Nat) : Bool :=
  jobs.any fun j =>
    (j.status == JobStatus.scheduled || j.status == JobStatus.processing) &&
    decide (t < j.time_slot + duration) &&
    decide (t + duration > j.time_slot)

/-! Helper lemmas about the embedded operations. -/

/-- Marking a job as processing preserves its id. -/
theorem markProcessing_id (j : Job) : (markProcessing j).id = j.id := rfl

/-- Characterization of a successful `findAndMark`: the list splits at the
first eligible job, which gets marked, everything else unchanged. -/
theorem findAndMark_spec (now : Nat) :
    ∀ jobs j jobs', findAndMark now jobs = some (j, jobs') →
      ∃ l1 j0 l2, jobs = l1 ++ j0 :: l2 ∧
        isEligible now j0 = true ∧
        (∀ k ∈ l1, isEligible now k = false) ∧
        j = markProcessing j0 ∧
        jobs' = l1 ++ markProcessing j0 :: l2 := by
  intro jobs
  induction jobs with
  | nil => intro j jobs' h; simp [findAndMark] at h
  | cons a rest ih =>
    intro j jobs' h
    by_cases ha : isEligible now a = true
    · refine ⟨[], a, rest, by simp, ha, by simp, ?_, ?_⟩
      · simp [findAndMark, ha] at h
        exact h.1.symm
      · simp [findAndMark, ha] at h
        simp [← h.2]
    · simp [findAndMark, ha] at h
      match hrec : findAndMark now rest with
      | none => rw [hrec] at h; simp at h
      | some (m, rest') =>
        rw [hrec] at h
        simp at h
        obtain ⟨l1, j0, l2, hsplit, helig, hnone, hmark, hrest'⟩ :=
          ih m rest' hrec
        refine ⟨a :: l1, j0, l2, by simp [hsplit], helig, ?_, ?_, ?_⟩
        · intro k hk
          rcases List.mem_cons.mp hk with hk | hk
          · subst hk; simpa using ha
          · exact hnone k hk
        · rw [← h.1, hmark]
        · simp [← h.2, hrest']

/-- When `f` preserves ids, `updateFirst` preserves the id multiset (as the
mapped list). -/
theorem updateFirst_map_id (p : Job → Bool) (f : Job → Job)
    (hf : ∀ x, (f x).id = x.id) :
    ∀ l : List Job, (updateFirst p f l).map Job.id = l.map Job.id := by
  intro l
  induction l with
  | nil => rfl
  | cons a rest ih =>
    by_cases hp : p a = true
    · simp [updateFirst, hp, hf]
    · simp [updateFirst, hp, ih]

/-- Membership in an `updateFirst` result comes from an untouched original
element or from `f` applied to an original element. -/
theorem updateFirst_mem (p : Job → Bool) (f : Job → Job) :
    ∀ l k, k ∈ updateFirst p f l → k ∈ l ∨ ∃ x ∈ l, k = f x := by
  intro l
  induction l with
  | nil => intro k hk; simp [updateFirst] at hk
  | cons a rest ih =>
    intro k hk
    by_cases hp : p a = true
    · simp [updateFirst, hp] at hk
      rcases hk with hk | hk
      · exact Or.inr ⟨a, by simp, hk⟩
      · exact Or.inl (by simp [hk])
    · simp [updateFirst, hp] at hk
      rcases hk with hk | hk
      · exact Or.inl (by simp [hk])
      · rcases ih k hk with h | ⟨x, hx, hfx⟩
        · exact Or.inl (List.mem_cons_of_mem a h)
        · exact Or.inr ⟨x, List.mem_cons_of_mem a hx, hfx⟩

/-- When `find?` succeeds, the list splits at the first match and
`updateFirst` rewrites exactly that element. -/
theorem updateFirst_of_found (p : Job → Bool) (f : Job → Job) :
    ∀ l : List Job, (l.find? p).isSome = true →
      ∃ l1 x l2, l = l1 ++ x :: l2 ∧
        (∀ y ∈ l1, p y = false) ∧ p x = true ∧
        updateFirst p f l = l1 ++ f x :: l2 := by
  intro l
  induction l with
  | nil => intro h; simp [List.find?] at h
  | cons a rest ih =>
    intro h
    by_cases hp : p a = true
    · exact ⟨[], a, rest, by simp, by simp, hp, by simp [updateFirst, hp]⟩
    · rw [List.find?_cons_of_neg _ (by simp [hp])] at h
      obtain ⟨l1, x, l2, hsplit, hnone, hx, hupd⟩ := ih h
      refine ⟨a :: l1, x, l2, by simp [hsplit], ?_, hx, ?_⟩
      · intro y hy
        rcases List.mem_cons.mp hy with hy | hy
        · subst hy; simpa using hp
        · exact hnone y hy
      · simp [updateFirst, hp, hupd]

/-- The poll loop yields nothing when no consumed response carries a result,
however much fuel it has. -/
theorem pollHistory_none (rs : List PollResponse)
    (h : ∀ r ∈ rs, isDone r = false) :
    ∀ n, pollHistory n rs = none := by
  induction rs with
  | nil => intro n; cases n <;> rfl
  | cons r rest ih =>
    intro n
    cases n with
    | zero => rfl
    | succ m =>
      have hr : isDone r = false := h r (by simp)
      have hrest : ∀ x ∈ rest, isDone x = false :=
        fun x hx => h x (List.mem_cons_of_mem r hx)
      cases r with
      | done file => simp [isDone] at hr
      | httpError => simpa [pollHistory] using ih hrest m
      | pending => simpa [pollHistory] using ih hrest m

/-- With duration 0, the overlap test `t < start + 0 ∧ t + 0 > start` is
unsatisfiable, so no booking ever collides. -/
theorem hasCollision_zero (jobs : List Job) (t : Nat) :
    hasCollision jobs 0 t = false := by
  rw [hasCollision, List.any_eq_false]
  intro j _
  simp only [Bool.and_eq_true, decide_eq_true_eq, not_and]
  omega

/-! Scheduler state invariant: id freshness, id distinctness, and the
relation between the busy flag, the current-job reference and the job
statuses. -/

/-- No job in the list has status `processing`. -/
def NoProcessing (jobs : List Job) : Prop :=
  ∀ j ∈ jobs, j.status ≠ JobStatus.processing

/-- Relation maintained between `currentExecutingJob`, `isWorkerIdle` and the
job statuses: an idle worker has no processing job; a busy worker has at most
the referenced job processing. -/
def CurInv : Option Nat → Bool → List Job → Prop
  | none, idle, jobs => idle = true ∧ NoProcessing jobs
  | some cid, idle, jobs =>
      idle = false ∧ ∀ j ∈ jobs, j.status = JobStatus.processing → j.id = cid

/-- Invariant preserved by every scheduler operation. -/
structure Inv (s : SchedulerState) : Prop where
  idsBound : ∀ i ∈ s.jobs.map Job.id, i < s.nextId
  idsNodup : (s.jobs.map Job.id).Nodup
  cur : CurInv s.currentExecutingJob s.isWorkerIdle s.jobs

/-- Unfolding of `processingCount` over a cons. -/
theorem processingCount_cons (a : Job) (rest : List Job) :
    processingCount (a :: rest) =
      (if a.status == JobStatus.processing then 1 else 0) + processingCount rest := by
  rw [processingCount, processingCount, List.filter_cons]
  split <;> simp [Nat.add_comm]

/-- A list with no processing job has processing count zero. -/
theorem processingCount_eq_zero (jobs : List Job) (h : NoProcessing jobs) :
    processingCount jobs = 0 := by
  induction jobs with
  | nil => rfl
  | cons a rest ih =>
    rw [processingCount_cons]
    have ha : (a.status == JobStatus.processing) = false := by
      simpa using h a (by simp)
    rw [ha, ih (fun j hj => h j (List.mem_cons_of_mem a hj))]
    simp

/-- When every processing job carries one fixed id and ids are distinct, at
most one job is processing. -/
theorem processingCount_le_one (cid : Nat) :
    ∀ jobs : List Job, (jobs.map Job.id).Nodup →
      (∀ j ∈ jobs, j.status = JobStatus.processing → j.id = cid) →
      processingCount jobs ≤ 1 := by
  intro jobs
  induction jobs with
  | nil => intro _ _; simp [processingCount]
  | cons a rest ih =>
    intro hnd hall
    rw [List.map_cons, List.nodup_cons] at hnd
    rw [processingCount_cons]
    by_cases ha : a.status = JobStatus.processing
    · have haid : a.id = cid := hall a (by simp) ha
      have hrest : NoProcessing rest := by
        intro k hk hkp
        have hkc : k.id = cid := hall k (List.mem_cons_of_mem a hk) hkp
        exact hnd.1 (by rw [haid, ← hkc]; exact List.mem_map_of_mem Job.id hk)
      simp [ha, processingCount_eq_zero rest hrest]
    · have ha' : (a.status == JobStatus.processing) = false := by simpa using ha
      rw [ha']
      simpa using ih hnd.2 (fun j hj => hall j (List.mem_cons_of_mem a hj))

/-- A reachable state has at most one processing job. -/
theorem processingCount_le_one_of_inv (s : SchedulerState) (hs : Inv s) :
    processingCount s.jobs ≤ 1 := by
  cases hcur : s.currentExecutingJob with
  | none =>
    have h := hs.cur
    rw [hcur] at h
    simp only [CurInv] at h
    simp [processingCount_eq_zero s.jobs h.2]
  | some cid =>
    have h := hs.cur
    rw [hcur] at h
    simp only [CurInv] at h
    exact processingCount_le_one cid s.jobs hs.idsNodup h.2

/-- `addJob` preserves the invariant: the appended job is fresh and
`scheduled`. -/
theorem inv_addJob (s : SchedulerState) (d : Nat) (u : String) (t : Nat)
    (p : String) (ps : List (String × Nat)) (hs : Inv s) :
    Inv (addJob s d u t p ps).1 := by
  rw [addJob]
  by_cases hc : hasCollision s.jobs d t = true
  · simpa [hc] using hs
  · simp only [hc]
    simp only [Bool.false_eq_true, if_false]
    refine ⟨?_, ?_, ?_⟩
    · intro i hi
      rw [List.map_append] at hi
      rcases List.mem_append.mp hi with hi | hi
      · exact Nat.lt_succ_of_lt (hs.idsBound i hi)
      · simp at hi
        rw [hi]
        exact Nat.lt_succ_self s.nextId
    · rw [List.map_append, List.nodup_append]
      refine ⟨hs.idsNodup, by simp, ?_⟩
      intro i hi
      have := hs.idsBound i hi
      simp
      omega
    · cases hcur : s.currentExecutingJob with
      | none =>
        have h := hs.cur
        rw [hcur] at h
        simp only [CurInv] at h ⊢
        refine ⟨h.1, ?_⟩
        intro j hj
        rcases List.mem_append.mp hj with hj | hj
        · exact h.2 j hj
        · simp at hj
          simp [hj]
      | some cid =>
        have h := hs.cur
        rw [hcur] at h
        simp only [CurInv] at h ⊢
        refine ⟨h.1, ?_⟩
        intro j hj hjp
        rcases List.mem_append.mp hj with hj | hj
        · exact h.2 j hj hjp
        · simp at hj
          rw [hj] at hjp
          simp at hjp

/-- The dispatch tick preserves the invariant: it only fires when the worker
is idle (hence nothing is processing), and marks exactly one job. -/
theorem inv_tick (s : SchedulerState) (now : Nat) (hs : Inv s) :
    Inv (checkAndExecute s now) := by
  cases hidle : s.isWorkerIdle with
  | false => simpa [checkAndExecute, hidle] using hs
  | true =>
    cases hcur : s.currentExecutingJob with
    | some cid =>
      have h := hs.cur
      rw [hcur] at h
      simp only [CurInv] at h
      rw [hidle] at h
      exact absurd h.1 (by simp)
    | none =>
      have h := hs.cur
      rw [hcur] at h
      simp only [CurInv] at h
      cases hfm : findAndMark now s.jobs with
      | none => simpa [checkAndExecute, hidle, hfm] using hs
      | some pair =>
        obtain ⟨j, jobs'⟩ := pair
        obtain ⟨l1, j0, l2, hsplit, helig, hnone, hmark, hjobs'⟩ :=
          findAndMark_spec now s.jobs j jobs' hfm
        have hmapeq : jobs'.map Job.id = s.jobs.map Job.id := by
          rw [hjobs', hsplit]
          simp [markProcessing_id]
        rw [checkAndExecute, hidle]
        simp only [hfm, if_true]
        refine ⟨?_, ?_, ?_⟩
        · intro i hi
          rw [hmapeq] at hi
          exact hs.idsBound i hi
        · rw [hmapeq]; exact hs.idsNodup
        · simp only [CurInv]
          refine ⟨by simp, ?_⟩
          intro k hk hkp
          rw [hjobs'] at hk
          rcases List.mem_append.mp hk with hk | hk
          · exact absurd hkp
              (h.2 k (by rw [hsplit]; exact List.mem_append_left _ hk))
          · rcases List.mem_cons.mp hk with hk | hk
            · rw [hk, hmark]
            · exact absurd hkp (h.2 k (by
                rw [hsplit]
                exact List.mem_append_right _ (List.mem_cons_of_mem j0 hk)))

/-- Finalizing an outcome never leaves a job processing. -/
theorem applyOutcome_status (o : ExecOutcome) (j : Job) :
    (applyOutcome o j).status ≠ JobStatus.processing := by
  cases o <;> simp [applyOutcome]

/-- `applyOutcome` preserves the job id. -/
theorem applyOutcome_id (o : ExecOutcome) (j : Job) :
    (applyOutcome o j).id = j.id := by
  cases o <;> rfl

/-- After finalizing the job referenced by `cid`, no job is processing,
provided ids are distinct and only the `cid` job could have been
processing. -/
theorem updateFirst_finish_noproc (cid : Nat) (o : ExecOutcome) :
    ∀ jobs : List Job, (jobs.map Job.id).Nodup →
      (∀ j ∈ jobs, j.status = JobStatus.processing → j.id = cid) →
      NoProcessing (updateFirst (fun j => j.id == cid) (applyOutcome o) jobs) := by
  intro jobs
  induction jobs with
  | nil => intro _ _ k hk; simp [updateFirst] at hk
  | cons a rest ih =>
    intro hnd hall k hk
    rw [List.map_cons, List.nodup_cons] at hnd
    by_cases hp : (a.id == cid) = true
    · simp only [updateFirst, hp, if_true] at hk
      rcases List.mem_cons.mp hk with hk | hk
      · rw [hk]; exact applyOutcome_status o a
      · intro hkp
        have hkc : k.id = cid := hall k (List.mem_cons_of_mem a hk) hkp
        have hac : a.id = cid := by simpa using hp
        exact hnd.1 (by rw [hac, ← hkc]; exact List.mem_map_of_mem Job.id hk)
    · simp only [updateFirst, hp, if_false, Bool.false_eq_true] at hk
      rcases List.mem_cons.mp hk with hk | hk
      · intro hkp
        rw [hk] at hkp
        have := hall a (by simp) hkp
        simp [this] at hp
      · exact ih hnd.2 (fun j hj => hall j (List.mem_cons_of_mem a hj)) k hk

/-- After finalizing a failure for the job referenced by `cid`, any job
carrying that id is `failed`. -/
theorem updateFirst_finish_failed (cid : Nat) :
    ∀ jobs : List Job, (jobs.map Job.id).Nodup →
      ∀ k ∈ updateFirst (fun j => j.id == cid)
          (applyOutcome ExecOutcome.failure) jobs,
        k.id = cid → k.status = JobStatus.failed := by
  intro jobs
  induction jobs with
  | nil => intro _ k hk; simp [updateFirst] at hk
  | cons a rest ih =>
    intro hnd k hk hkc
    rw [List.map_cons, List.nodup_cons] at hnd
    by_cases hp : (a.id == cid) = true
    · simp only [updateFirst, hp, if_true] at hk
      rcases List.mem_cons.mp hk with hk | hk
      · rw [hk]; rfl
      · have hac : a.id = cid := by simpa using hp
        exact absurd (by rw [hac, ← hkc]; exact List.mem_map_of_mem Job.id hk)
          hnd.1
    · simp only [updateFirst, hp, if_false, Bool.false_eq_true] at hk
      rcases List.mem_cons.mp hk with hk | hk
      · rw [hk] at hkc
        simp [hkc] at hp
      · exact ih hnd.2 k hk hkc

/-- The finish step preserves the invariant and frees the worker. -/
theorem inv_finish (s : SchedulerState) (o : ExecOutcome) (hs : Inv s) :
    Inv (finishCurrent s o) := by
  cases hcur : s.currentExecutingJob with
  | none => simpa [finishCurrent, hcur] using hs
  | some cid =>
    have h := hs.cur
    rw [hcur] at h
    simp only [CurInv] at h
    rw [finishCurrent, hcur]
    have hmapeq :
        (updateFirst (fun j => j.id == cid) (applyOutcome o) s.jobs).map Job.id
          = s.jobs.map Job.id :=
      updateFirst_map_id _ _ (applyOutcome_id o) s.jobs
    refine ⟨?_, ?_, ?_⟩
    · intro i hi
      rw [hmapeq] at hi
      exact hs.idsBound i hi
    · rw [hmapeq]; exact hs.idsNodup
    · simp only [CurInv]
      exact ⟨by simp, updateFirst_finish_noproc cid o s.jobs hs.idsNodup h.2⟩

/-- `deleteJob` preserves the invariant: removal shrinks every quantified
condition. -/
theorem inv_delete (s : SchedulerState) (jobId : Nat) (hs : Inv s) :
    Inv (deleteJob s jobId) := by
  have hsub : List.Sublist (s.jobs.eraseP (fun j => j.id == jobId)) s.jobs :=
    List.eraseP_sublist s.jobs
  have hmem : ∀ k ∈ s.jobs.eraseP (fun j => j.id == jobId), k ∈ s.jobs :=
    fun k hk => hsub.subset hk
  refine ⟨?_, ?_, ?_⟩
  · intro i hi
    exact hs.idsBound i ((hsub.map Job.id).subset hi)
  · exact hs.idsNodup.sublist (hsub.map Job.id)
  · have h := hs.cur
    show CurInv s.currentExecutingJob s.isWorkerIdle
      (s.jobs.eraseP (fun j => j.id == jobId))
    cases hcur : s.currentExecutingJob with
    | none =>
      rw [hcur] at h
      simp only [CurInv] at h ⊢
      exact ⟨h.1, fun k hk => h.2 k (hmem k hk)⟩
    | some cid =>
      rw [hcur] at h
      simp only [CurInv] at h ⊢
      exact ⟨h.1, fun k hk hkp => h.2 k (hmem k hk) hkp⟩

/-- `reorderJob` preserves the invariant: it can only move a job in time,
never change a status or an id. -/
theorem inv_reorder (s : SchedulerState) (d jobId t : Nat) (hs : Inv s) :
    Inv (reorderJob s d jobId t).1 := by
  rw [reorderJob]
  cases hfind : s.jobs.find? (fun j => j.id == jobId) with
  | none => exact hs
  | some x =>
    by_cases hcol : reorderCollision s d jobId t = true
    · simp only [hcol, if_true]
      exact hs
    · simp only [hcol, Bool.false_eq_true, if_false]
      have hid : ∀ y : Job, ({ y with time_slot := t } : Job).id = y.id :=
        fun y => rfl
      have hmapeq :
          (updateFirst (fun j => j.id == jobId)
            (fun j => { j with time_slot := t }) s.jobs).map Job.id
            = s.jobs.map Job.id :=
        updateFirst_map_id _ _ hid s.jobs
      have hmem := updateFirst_mem (fun j => j.id == jobId)
        (fun j => { j with time_slot := t }) s.jobs
      refine ⟨?_, ?_, ?_⟩
      · intro i hi
        rw [hmapeq] at hi
        exact hs.idsBound i hi
      · rw [hmapeq]; exact hs.idsNodup
      · cases hcur : s.currentExecutingJob with
        | none =>
          have h := hs.cur
          rw [hcur] at h
          simp only [CurInv] at h ⊢
          refine ⟨h.1, ?_⟩
          intro k hk
          rcases hmem k hk with hk' | ⟨y, hy, hky⟩
          · exact h.2 k hk'
          · rw [hky]
            exact h.2 y hy
        | some cid =>
          have h := hs.cur
          rw [hcur] at h
          simp only [CurInv] at h ⊢
          refine ⟨h.1, ?_⟩
          intro k hk hkp
          rcases hmem k hk with hk' | ⟨y, hy, hky⟩
          · exact h.2 k hk' hkp
          · rw [hky] at hkp ⊢
            exact h.2 y hy hkp

/-- Every event preserves the invariant. -/
theorem inv_step (d : Nat) (s : SchedulerState) (e : Event) (hs : Inv s) :
    Inv (step d s e) := by
  cases e with
  | book u t p ps => exact inv_addJob s d u t p ps hs
  | tick now => exact inv_tick s now hs
  | finish o => exact inv_finish s o hs
  | del jobId => exact inv_delete s jobId hs
  | reorder jobId t => exact inv_reorder s d jobId t hs

/-- The constructor state satisfies the invariant. -/
theorem inv_initial : Inv initialScheduler := by
  refine ⟨?_, ?_, ?_⟩
  · intro i hi
    simp [initialScheduler] at hi
  · simp [initialScheduler]
  · simp only [initialScheduler, CurInv]
    exact ⟨by simp, fun j hj => by simp at hj⟩

/-- Every reachable scheduler state satisfies the invariant. -/
theorem inv_run (d : Nat) (events : List Event) : Inv (run d events) := by
  rw [run]
  have h : ∀ s, Inv s → Inv (events.foldl (step d) s) := by
    induction events with
    | nil => intro s hs; exact hs
    | cons e rest ih =>
      intro s hs
      exact ih (step d s e) (inv_step d s e hs)
  exact h initialScheduler inv_initial

/-! Concrete fixtures used by counterexamples and witnesses. -/

def uAlice : String := "alice"

def uBob : String := "bob"

def uCarol : String := "carol"

def uDana : String := "dana"

def pSunrise : String := "sunrise"

def pSunset : String := "sunset"

def pDawn : String := "dawn"

def pMoon : String := "moon"

/-- State holding one finished job: booked at t=0, dispatched, completed. -/
def stateDone : SchedulerState :=
  run 60000 [Event.book uAlice 0 pSunrise [], Event.tick 0,
    Event.finish (ExecOutcome.success none)]

/-! Claim theorems. -/

/-- C1 counterexample: against a queue whose only job is `completed`,
`addJob` at the very same slot still fails with the collision error, although
the claim's status-filtered overlap predicate is false (no scheduled or
processing job overlaps). -/
theorem addJob_status_filter_cex :
    (∀ j ∈ stateDone.jobs, j.status = JobStatus.completed) ∧
    (addJob stateDone 60000 uBob 0 pSunset []).2
      = Except.error SchedError.collisionError ∧
    specCollision stateDone.jobs 60000 0 = false := by
  exact ⟨by decide, rfl, by decide⟩

/-- C1 (amended): `addJob(owner, t, ...)` fails with `CollisionError` exactly
when `t < existing.end ∧ t + D > existing.start` for some existing job of
ANY status — completed and failed jobs also block the slot. -/
theorem addJob_collision_iff (s : SchedulerState) (d : Nat) (u : String)
    (t : Nat) (p : String) (ps : List (String × Nat)) :
    (addJob s d u t p ps).2 = Except.error SchedError.collisionError ↔
      ∃ j ∈ s.jobs, t < j.time_slot + d ∧ t + d > j.time_slot := by
  have hiff : hasCollision s.jobs d t = true ↔
      ∃ j ∈ s.jobs, t < j.time_slot + d ∧ t + d > j.time_slot := by
    rw [hasCollision, List.any_eq_true]
    constructor
    · rintro ⟨j, hj, hc⟩
      simp only [Bool.and_eq_true, decide_eq_true_eq] at hc
      exact ⟨j, hj, hc.1, hc.2⟩
    · rintro ⟨j, hj, h1, h2⟩
      refine ⟨j, hj, ?_⟩
      simp only [Bool.and_eq_true, decide_eq_true_eq]
      exact ⟨h1, h2⟩
  rw [addJob]
  by_cases hc : hasCollision s.jobs d t = true
  · rw [if_pos hc]
    constructor
    · intro _
      exact hiff.mp hc
    · intro _
      rfl
  · rw [if_neg hc]
    constructor
    · intro habs
      exact absurd habs (by simp)
    · intro hex
      exact absurd (hiff.mpr hex) hc

/-- C4: whenever `addJob` reports an error, the scheduler state — in
particular the whole job list, every field of every job included — is exactly
what it was before the call. -/
theorem addJob_reject_no_mutation (s : SchedulerState) (d : Nat) (u : String)
    (t : Nat) (p : String) (ps : List (String × Nat))
    (h : isErr (addJob s d u t p ps).2 = true) :
    (addJob s d u t p ps).1 = s := by
  rw [addJob] at h ⊢
  by_cases hc : hasCollision s.jobs d t = true
  · rw [if_pos hc]
  · rw [if_neg hc] at h
    exact absurd h (by simp [isErr])

/-- State holding one scheduled job at t=1000 with D=60000. -/
def stateC4 : SchedulerState :=
  (addJob initialScheduler 60000 uAlice 1000 pSunrise []).1

/-- C4 witness: the booking at t=30000 collides with the job at t=1000 and
leaves the state untouched. -/
theorem addJob_reject_no_mutation_witness :
    isErr (addJob stateC4 60000 uBob 30000 pSunset []).2 = true ∧
    (addJob stateC4 60000 uBob 30000 pSunset []).1 = stateC4 :=
  ⟨by decide,
    addJob_reject_no_mutation stateC4 60000 uBob 30000 pSunset [] (by decide)⟩

/-- First scenario booking: empty queue, D=60000, t=1000. -/
def bookingA : SchedulerState × Except SchedError Job :=
  addJob initialScheduler 60000 uAlice 1000 pSunrise []

/-- Second scenario booking: t=30000 on the queue holding the t=1000 job. -/
def bookingB : SchedulerState × Except SchedError Job :=
  addJob bookingA.1 60000 uBob 30000 pSunset []

/-- Third scenario booking: t=61000 on the queue holding the t=1000 job. -/
def bookingC : SchedulerState × Except SchedError Job :=
  addJob bookingA.1 60000 uCarol 61000 pDawn []

/-- C5: with D=60000 and an empty scheduler, booking t=1000 succeeds,
booking t=30000 then fails with the collision error (it overlaps
`[1000, 61000)`), and booking t=61000 succeeds — the boundary of the
half-open interval is free. -/
theorem halfOpen_boundary_scenario :
    isErr bookingA.2 = false ∧
    bookingB.2 = Except.error SchedError.collisionError ∧
    isErr bookingC.2 = false ∧
    bookingC.1.jobs.map Job.time_slot = [1000, 61000] :=
  ⟨rfl, rfl, rfl, rfl⟩

/-- Job record that a successful `addJob` appends (named for proof reuse). -/
def newJobOf (s : SchedulerState) (u : String) (t : Nat) (p : String)
    (ps : List (String × Nat)) : Job :=
  { id := s.nextId, user_id := u, status := JobStatus.scheduled,
    time_slot := t, prompt := p, params := ps, result_filename := none,
    progress := none, s_it := none }

/-- Shape of a successful `addJob` call. -/
theorem addJob_ok_shape (s : SchedulerState) (d : Nat) (u : String) (t : Nat)
    (p : String) (ps : List (String × Nat))
    (hc : ¬ (hasCollision s.jobs d t = true)) :
    addJob s d u t p ps =
      ({ s with
          jobs := s.jobs ++ [newJobOf s u t p ps]
          nextId := s.nextId + 1 },
        Except.ok (newJobOf s u t p ps)) := by
  rw [addJob, if_neg hc]
  rfl

/-- C10: the BootManager starts with `globalJobDuration = 0`, and while the
duration is 0 no booking ever collides — even at a slot equal to an existing
job's slot — because both intervals `[t, t+0)` are empty under the strict
overlap test; the job is always appended as `scheduled`. -/
theorem addJob_zero_duration_always_ok (s : SchedulerState) (u : String)
    (t : Nat) (p : String) (ps : List (String × Nat)) :
    initialBootManager.globalJobDuration = 0 ∧
    isErr (addJob s 0 u t p ps).2 = false ∧
    ∃ nj : Job, (addJob s 0 u t p ps).2 = Except.ok nj ∧
      (addJob s 0 u t p ps).1.jobs = s.jobs ++ [nj] ∧
      nj.status = JobStatus.scheduled ∧ nj.time_slot = t := by
  have hc : ¬ (hasCollision s.jobs 0 t = true) := by
    rw [hasCollision_zero]
    simp
  rw [addJob_ok_shape s 0 u t p ps hc]
  exact ⟨rfl, rfl, newJobOf s u t p ps, rfl, rfl, rfl, rfl⟩

/-- Demo trace exercising every event kind. -/
def demoEvents : List Event :=
  [Event.book uAlice 0 pSunrise [], Event.tick 0,
   Event.book uBob 70000 pSunset [], Event.finish ExecOutcome.failure,
   Event.tick 70000, Event.finish (ExecOutcome.success none), Event.del 0]

/-- State with a busy worker: one job booked at t=0 and dispatched. -/
def busyState : SchedulerState :=
  run 60000 [Event.book uAlice 0 pSunrise [], Event.tick 0]

/-- C2: along every event sequence (bookings, ticks, completions, deletions,
reorders) at most one job is ever `processing`; moreover a tick that finds
the worker busy changes nothing — the single-resource serialization. -/
theorem single_processing_invariant (d : Nat) (events : List Event)
    (s : SchedulerState) (now : Nat) (hbusy : s.isWorkerIdle = false) :
    processingCount (run d events).jobs ≤ 1 ∧ checkAndExecute s now = s := by
  refine ⟨processingCount_le_one_of_inv (run d events) (inv_run d events), ?_⟩
  rw [checkAndExecute, hbusy]
  simp

/-- C2 witness: the invariant evaluated over the demo trace, and a busy-tick
no-op on a reachable busy state. -/
theorem single_processing_invariant_witness :
    busyState.isWorkerIdle = false ∧
    (processingCount (run 60000 demoEvents).jobs ≤ 1 ∧
      checkAndExecute busyState 5 = busyState) :=
  ⟨by decide, single_processing_invariant 60000 demoEvents busyState 5 (by decide)⟩

/-- State with two scheduled jobs, stored in the order t=70000 then t=0
(both bookable with D=60000 since 0+60000 = 60000 < 70000 means no
overlap). -/
def stateC3 : SchedulerState :=
  run 60000 [Event.book uAlice 70000 pSunrise [], Event.book uBob 0 pSunset []]

/-- C3 counterexample: at now=70000 both jobs are eligible; the dispatcher
marks the job with slot 70000 (the first stored) although an eligible job
with the strictly smaller slot 0 exists — selection is not earliest-first. -/
theorem dispatch_not_earliest_cex :
    stateC3.isWorkerIdle = true ∧
    (∃ j ∈ stateC3.jobs, isEligible 70000 j = true ∧ j.time_slot = 0) ∧
    (∃ j ∈ (checkAndExecute stateC3 70000).jobs,
      j.status = JobStatus.processing) ∧
    (∀ j ∈ (checkAndExecute stateC3 70000).jobs,
      j.status = JobStatus.processing → j.time_slot = 70000) := by
  decide

/-- C3 (amended): on a tick with an idle worker, the dispatcher selects the
first eligible job in insertion (array) order — every job stored before it is
ineligible — marks it `processing`, marks the worker busy and records its id;
`time_slot` influences the choice only through the eligibility test. -/
theorem dispatch_selects_first_eligible (s : SchedulerState) (now : Nat)
    (j : Job) (jobs' : List Job) (hidle : s.isWorkerIdle = true)
    (hfm : findAndMark now s.jobs = some (j, jobs')) :
    (checkAndExecute s now).jobs = jobs' ∧
    (checkAndExecute s now).isWorkerIdle = false ∧
    (checkAndExecute s now).currentExecutingJob = some j.id ∧
    ∃ l1 j0 l2, s.jobs = l1 ++ j0 :: l2 ∧
      isEligible now j0 = true ∧
      (∀ k ∈ l1, isEligible now k = false) ∧
      j = markProcessing j0 ∧
      jobs' = l1 ++ markProcessing j0 :: l2 := by
  have heq : checkAndExecute s now =
      { s with jobs := jobs', isWorkerIdle := false,
               currentExecutingJob := some j.id } := by
    rw [checkAndExecute, hidle]
    simp [hfm]
  rw [heq]
  exact ⟨rfl, rfl, rfl, findAndMark_spec now s.jobs j jobs' hfm⟩

/-- Job at slot 70000 as stored in `stateC3`, after marking. -/
def mJobC3 : Job :=
  { id := 0, user_id := uAlice, status := JobStatus.processing,
    time_slot := 70000, prompt := pSunrise, params := [],
    result_filename := none, progress := some (0, 20), s_it := none }

/-- Job at slot 0 as stored in `stateC3`. -/
def jobC3b : Job :=
  { id := 1, user_id := uBob, status := JobStatus.scheduled, time_slot := 0,
    prompt := pSunset, params := [], result_filename := none,
    progress := none, s_it := none }

/-- C3 witness: the amended selection theorem applied to `stateC3` at
now=70000. -/
theorem dispatch_selects_first_eligible_witness :
    stateC3.isWorkerIdle = true ∧
    findAndMark 70000 stateC3.jobs = some (mJobC3, [mJobC3, jobC3b]) ∧
    ((checkAndExecute stateC3 70000).jobs = [mJobC3, jobC3b] ∧
     (checkAndExecute stateC3 70000).isWorkerIdle = false ∧
     (checkAndExecute stateC3 70000).currentExecutingJob = some mJobC3.id ∧
     ∃ l1 j0 l2, stateC3.jobs = l1 ++ j0 :: l2 ∧
       isEligible 70000 j0 = true ∧
       (∀ k ∈ l1, isEligible 70000 k = false) ∧
       mJobC3 = markProcessing j0 ∧
       [mJobC3, jobC3b] = l1 ++ markProcessing j0 :: l2) :=
  ⟨by decide, by decide,
    dispatch_selects_first_eligible stateC3 70000 mJobC3 [mJobC3, jobC3b]
      (by decide) (by decide)⟩

/-- C6 counterexample: `stateDone` holds only a `completed` job (id 0), yet
`reorderJob` to slot 500000 returns success — not `InvalidStateError` — and
the finished job's `time_slot` is overwritten. -/
theorem reorder_finished_job_cex :
    (∀ j ∈ stateDone.jobs, j.status = JobStatus.completed) ∧
    (reorderJob stateDone 60000 0 500000).2 = Except.ok () ∧
    (reorderJob stateDone 60000 0 500000).1.jobs.map Job.time_slot
      = [500000] :=
  ⟨by decide, rfl, by decide⟩

/-- C6 (amended): `reorderJob` checks no status at all: for an existing job
of ANY status (processing, completed or failed included), whenever the new
slot does not collide with the other jobs the call succeeds and overwrites
exactly that job's `time_slot`; `InvalidStateError` is never raised. -/
theorem reorderJob_ignores_status (s : SchedulerState) (d jobId t : Nat)
    (hfound : (s.jobs.find? (fun j => j.id == jobId)).isSome = true)
    (hnc : reorderCollision s d jobId t = false) :
    (reorderJob s d jobId t).2 = Except.ok () ∧
    (reorderJob s d jobId t).2 ≠ Except.error SchedError.invalidStateError ∧
    ∃ l1 x l2, s.jobs = l1 ++ x :: l2 ∧ x.id = jobId ∧
      (∀ y ∈ l1, (y.id == jobId) = false) ∧
      (reorderJob s d jobId t).1.jobs
        = l1 ++ { x with time_slot := t } :: l2 := by
  obtain ⟨x, hx⟩ := Option.isSome_iff_exists.mp hfound
  have heq : reorderJob s d jobId t =
      ({ s with
          jobs := updateFirst (fun j => j.id == jobId)
            (fun j => { j with time_slot := t }) s.jobs },
        Except.ok ()) := by
    rw [reorderJob, hx]
    simp [hnc]
  obtain ⟨l1, y, l2, hsplit, hnone, hy, hupd⟩ :=
    updateFirst_of_found (fun j => j.id == jobId)
      (fun j => { j with time_slot := t }) s.jobs hfound
  rw [heq]
  refine ⟨rfl, by simp, l1, y, l2, hsplit, by simpa using hy, hnone, ?_⟩
  simpa using hupd

/-- C6 witness: the amended theorem applied to `stateDone` (one completed
job, id 0) moving to slot 500000. -/
theorem reorderJob_ignores_status_witness :
    (stateDone.jobs.find? (fun j => j.id == 0)).isSome = true ∧
    reorderCollision stateDone 60000 0 500000 = false ∧
    ((reorderJob stateDone 60000 0 500000).2 = Except.ok () ∧
     (reorderJob stateDone 60000 0 500000).2
       ≠ Except.error SchedError.invalidStateError ∧
     ∃ l1 x l2, stateDone.jobs = l1 ++ x :: l2 ∧ x.id = 0 ∧
       (∀ y ∈ l1, (y.id == 0) = false) ∧
       (reorderJob stateDone 60000 0 500000).1.jobs
         = l1 ++ { x with time_slot := 500000 } :: l2) :=
  ⟨by decide, by decide,
    reorderJob_ignores_status stateDone 60000 0 500000 (by decide) (by decide)⟩

/-- Scheduler state after the current execution's poll loop ends with the
given responses: the finish step applied to the state reached by `events`. -/
def afterTimeout (d : Nat) (events : List Event)
    (rs : List PollResponse) : SchedulerState :=
  finishCurrent (run d events) (outcomeOf (executeJobBody true rs))

/-- C7: when every engine response lacks the history entry, the poll loop
exhausts `maxAttempts` and the body throws the timeout error; the finish step
then leaves the job referenced as current with status `failed`, frees the
worker, and a following tick that finds an eligible job dispatches it — a
failing job never wedges the loop. -/
theorem poll_exhaustion_recovery (d : Nat) (events : List Event)
    (rs : List PollResponse) (now cid : Nat)
    (hnr : ∀ r ∈ rs, isDone r = false) :
    executeJobBody true rs = Except.error ExecError.executionTimeout ∧
    (afterTimeout d events rs).isWorkerIdle = true ∧
    (∀ k ∈ (afterTimeout d events rs).jobs,
      (run d events).currentExecutingJob = some cid → k.id = cid →
        k.status = JobStatus.failed) ∧
    ((findAndMark now (afterTimeout d events rs).jobs).isSome = true →
      ∃ jb ∈ (checkAndExecute (afterTimeout d events rs) now).jobs,
        jb.status = JobStatus.processing) := by
  have hs := inv_run d events
  have hpoll : pollHistory maxAttempts rs = none :=
    pollHistory_none rs hnr maxAttempts
  have h1 : executeJobBody true rs = Except.error ExecError.executionTimeout := by
    simp [executeJobBody, hpoll]
  have hout : outcomeOf (executeJobBody true rs) = ExecOutcome.failure := by
    rw [h1]
    rfl
  have hidle : (afterTimeout d events rs).isWorkerIdle = true := by
    rw [afterTimeout]
    cases hcur : (run d events).currentExecutingJob with
    | none =>
      have h := hs.cur
      rw [hcur] at h
      simp only [CurInv] at h
      simpa [finishCurrent, hcur] using h.1
    | some cid' => simp [finishCurrent, hcur]
  refine ⟨h1, hidle, ?_, ?_⟩
  · intro k hk hc hkid
    rw [afterTimeout, hout, finishCurrent, hc] at hk
    exact updateFirst_finish_failed cid (run d events).jobs hs.idsNodup k hk hkid
  · intro hfm
    obtain ⟨pair, hpair⟩ := Option.isSome_iff_exists.mp hfm
    obtain ⟨j, jobs'⟩ := pair
    obtain ⟨l1, j0, l2, hsplit, helig, hnone, hmark, hjobs'⟩ :=
      findAndMark_spec now (afterTimeout d events rs).jobs j jobs' hpair
    have heq : checkAndExecute (afterTimeout d events rs) now =
        { afterTimeout d events rs with
            jobs := jobs'
            isWorkerIdle := false
            currentExecutingJob := some j.id } := by
      rw [checkAndExecute, hidle]
      simp [hpair]
    rw [heq]
    refine ⟨markProcessing j0, ?_, rfl⟩
    show markProcessing j0 ∈ jobs'
    rw [hjobs']
    exact List.mem_append_right l1 (by simp)

/-- Trace for the C7 witness: a job dispatched at t=0 is executing; a second
job is booked for t=100000. -/
def eventsC7 : List Event :=
  [Event.book uAlice 0 pSunrise [], Event.tick 0,
   Event.book uBob 100000 pSunset []]

/-- C7 witness: the empty response sequence (every poll attempt errors out)
drives the executing job of `eventsC7` to `failed` and the t=100000 job is
dispatched on the next tick. -/
theorem poll_exhaustion_recovery_witness :
    (∀ r ∈ ([] : List PollResponse), isDone r = false) ∧
    (executeJobBody true [] = Except.error ExecError.executionTimeout ∧
     (afterTimeout 60000 eventsC7 []).isWorkerIdle = true ∧
     (∀ k ∈ (afterTimeout 60000 eventsC7 []).jobs,
       (run 60000 eventsC7).currentExecutingJob = some 0 → k.id = 0 →
         k.status = JobStatus.failed) ∧
     ((findAndMark 100000 (afterTimeout 60000 eventsC7 []).jobs).isSome = true →
       ∃ jb ∈ (checkAndExecute (afterTimeout 60000 eventsC7 []) 100000).jobs,
         jb.status = JobStatus.processing)) :=
  ⟨by decide, poll_exhaustion_recovery 60000 eventsC7 [] 100000 0 (by decide)⟩

/-- Configuration whose python executable is missing. -/
def cfgBad : BootConfig :=
  { python_executable_exists := false, root_path_exists := true }

/-- Configuration whose paths both exist. -/
def cfgGood : BootConfig :=
  { python_executable_exists := true, root_path_exists := true }

/-- Fully healthy boot environment with a 3 ms measured ping. -/
def envGood : BootEnv :=
  { apiReachable := true, wsConnects := true, pingSucceeds := true,
    pingDurationMs := 3 }

/-- Healthy boot environment whose ping measured 999999 ms. -/
def envSlow : BootEnv :=
  { apiReachable := true, wsConnects := true, pingSucceeds := true,
    pingDurationMs := 999999 }

/-- Boot attempt with the missing executable. -/
def bootFail : BootManagerState × Except BootError BootResult :=
  boot initialBootManager cfgBad envGood

/-- System state after the failed boot, with one job booked for t=0. -/
def sysC8 : SystemState :=
  { bootManager := bootFail.1,
    scheduler := run 60000 [Event.book uDana 0 pMoon []] }

/-- C8 counterexample: a validation failure rejects `boot()` but leaves the
status at 'booting' — not 'error' — and the dispatch loop, which never reads
the supervisor status, still marks an eligible job `processing` on the next
tick. -/
theorem boot_failure_cex :
    bootFail.2 = Except.error BootError.configurationError ∧
    bootFail.1.status = BootStatus.booting ∧
    sysC8.bootManager.status ≠ BootStatus.ready ∧
    ∃ j ∈ (systemTick sysC8 50).scheduler.jobs,
      j.status = JobStatus.processing :=
  ⟨rfl, rfl, by decide, by decide⟩

/-- C8 (amended): a failing boot stage rejects the promise and leaves the
BootManager exactly as it was (so the status stays 'booting'; only the
engine-process exit handler ever sets 'error'); and the dispatch tick is
independent of the BootManager — with the same scheduler state it dispatches
identically under any supervisor status. -/
theorem boot_failure_no_error_state (m : BootManagerState) (cfg : BootConfig)
    (env : BootEnv) (b1 b2 : BootManagerState) (sc : SchedulerState)
    (now : Nat) (hfail : isErr (boot m cfg env).2 = true) :
    (boot m cfg env).1 = m ∧
    (onProcessExit m).status = BootStatus.error ∧
    (systemTick { bootManager := b1, scheduler := sc } now).scheduler
      = (systemTick { bootManager := b2, scheduler := sc } now).scheduler := by
  refine ⟨?_, rfl, rfl⟩
  rw [boot] at hfail ⊢
  cases hv : validateConfig cfg with
  | error e => rfl
  | ok u =>
    cases hap : env.apiReachable with
    | false => rfl
    | true =>
      cases hws : env.wsConnects with
      | false => rfl
      | true => simp [hv, hap, hws, isErr] at hfail

/-- C8 witness: the amended theorem applied to the missing-executable boot. -/
theorem boot_failure_no_error_state_witness :
    isErr (boot initialBootManager cfgBad envGood).2 = true ∧
    ((boot initialBootManager cfgBad envGood).1 = initialBootManager ∧
     (onProcessExit initialBootManager).status = BootStatus.error ∧
     (systemTick
        { bootManager := initialBootManager
          scheduler := initialScheduler } 0).scheduler
       = (systemTick
          { bootManager := onProcessExit initialBootManager
            scheduler := initialScheduler } 0).scheduler) :=
  ⟨by decide,
    boot_failure_no_error_state initialBootManager cfgBad envGood
      initialBootManager (onProcessExit initialBootManager)
      initialScheduler 0 (by decide)⟩

/-- C9: every successful boot finishes with `globalJobDuration = 60000` —
a constant, identical across environments, in particular independent of the
only measured duration (the `/system_stats` ping time) — with status 'ready';
`runBenchmark` itself assigns the constant 14500 when the ping succeeds. No
generation job is represented anywhere in the boot sequence, so no
end-to-end generation duration is ever measured. -/
theorem calibration_is_constant (m1 m2 : BootManagerState)
    (cfg1 cfg2 : BootConfig) (env1 env2 : BootEnv)
    (h1 : isErr (boot m1 cfg1 env1).2 = false)
    (h2 : isErr (boot m2 cfg2 env2).2 = false) :
    (boot m1 cfg1 env1).1.globalJobDuration = 60000 ∧
    (boot m2 cfg2 env2).1.globalJobDuration
      = (boot m1 cfg1 env1).1.globalJobDuration ∧
    (boot m1 cfg1 env1).1.status = BootStatus.ready ∧
    (env1.pingSucceeds = true →
      (runBenchmark m1 env1).globalJobDuration = 14500) := by
  have hshape : ∀ (m : BootManagerState) (cfg : BootConfig) (env : BootEnv),
      isErr (boot m cfg env).2 = false →
      (boot m cfg env).1.globalJobDuration = 60000 ∧
      (boot m cfg env).1.status = BootStatus.ready := by
    intro m cfg env h
    rw [boot] at h ⊢
    cases hv : validateConfig cfg with
    | error e => simp [hv, isErr] at h
    | ok u =>
      cases hap : env.apiReachable with
      | false => simp [hv, hap, isErr] at h
      | true =>
        cases hws : env.wsConnects with
        | false => simp [hv, hap, hws, isErr] at h
        | true => exact ⟨rfl, rfl⟩
  have hA := hshape m1 cfg1 env1 h1
  have hB := hshape m2 cfg2 env2 h2
  refine ⟨hA.1, by rw [hA.1, hB.1], hA.2, ?_⟩
  intro hping
  rw [runBenchmark, hping]
  simp

/-- C9 witness: two successful boots whose measured ping times differ by five
orders of magnitude produce the same constant duration. -/
theorem calibration_is_constant_witness :
    isErr (boot initialBootManager cfgGood envGood).2 = false ∧
    isErr (boot initialBootManager cfgGood envSlow).2 = false ∧
    ((boot initialBootManager cfgGood envGood).1.globalJobDuration = 60000 ∧
     (boot initialBootManager cfgGood envSlow).1.globalJobDuration
       = (boot initialBootManager cfgGood envGood).1.globalJobDuration ∧
     (boot initialBootManager cfgGood envGood).1.status = BootStatus.ready ∧
     (envGood.pingSucceeds = true →
       (runBenchmark initialBootManager envGood).globalJobDuration = 14500)) :=
  ⟨by decide, by decide,
    calibration_is_constant initialBootManager initialBootManager
      cfgGood cfgGood envGood envSlow (by decide) (by decide)⟩

/-- C1 witness: the amended collision characterization evaluated on the
one-job queue at t=30000. -/
theorem addJob_collision_iff_witness :
    (addJob stateC4 60000 uBob 30000 pSunset []).2
      = Except.error SchedError.collisionError ↔
    ∃ j ∈ stateC4.jobs, 30000 < j.time_slot + 60000 ∧
      30000 + 60000 > j.time_slot :=
  addJob_collision_iff stateC4 60000 uBob 30000 pSunset []

/-- C10 witness: the zero-duration booking theorem evaluated on the empty
scheduler at t=5. -/
theorem addJob_zero_duration_always_ok_witness :
    initialBootManager.globalJobDuration = 0 ∧
    isErr (addJob initialScheduler 0 uAlice 5 pSunrise []).2 = false ∧
    ∃ nj : Job, (addJob initialScheduler 0 uAlice 5 pSunrise []).2
        = Except.ok nj ∧
      (addJob initialScheduler 0 uAlice 5 pSunrise []).1.jobs
        = initialScheduler.jobs ++ [nj] ∧
      nj.status = JobStatus.scheduled ∧ nj.time_slot = 5 :=
  addJob_zero_duration_always_ok initialScheduler uAlice 5 pSunrise []

end ComfyQ
